import Mathlib

/-!
# SafeMap front-end core: shallow embedding and verification

Shallow embedding of the multi-route comparison and scoring engine of the
SafeMap web client (`static/js/app.js`, multi-route variant).  JavaScript
numbers are modelled as rationals (`ℚ`), strings as Lean `String`s, and the
stateful Leaflet display as an explicit event semantics over a `DisplayState`.
Each definition mirrors one function of the source file.
-/

namespace SafeMap

/-- JavaScript `Math.round`: round half toward positive infinity.
Also the semantics of `toFixed(0)` (ties pick the larger integer). -/
def jsRound (x : ℚ) : ℤ := ⌊x + 1/2⌋

/-- `r.stats` of a route candidate, as delivered by the routing collaborator.
`length_m` and `mean_risk` are `Option` because the JS code guards them with
`|| 0` (absent fields are `undefined`). -/
structure RouteStats where
  length_m : Option ℚ
  mean_risk : Option ℚ
  detour_m_vs_beta0 : ℚ
  risk_delta_vs_beta0 : ℚ

/-- One route candidate of a `RouteResultSet` (`data.routes[i]`). -/
structure RouteCandidate where
  beta : ℚ
  name : Option String
  color : String
  stats : RouteStats

/-- The multi-route response envelope `{mode, routes: [...]}` (fields the
client reads; snapped endpoints are unused by the rendering code). -/
structure RouteData where
  mode : String
  routes : List RouteCandidate

/-- `r.stats.mean_risk || 0`: `undefined` and `0` are falsy, any other
numeric value passes through. -/
def meanRisk0 (r : RouteCandidate) : ℚ := r.stats.mean_risk.getD 0

/-- `r.stats.length_m || 0`. -/
def length0 (r : RouteCandidate) : ℚ := r.stats.length_m.getD 0

/-- `Math.max(1e-9, ...routes.map(r => r.stats.mean_risk || 0))` from
`safetyScores`: the divisor used to normalise risks, floored at `1e-9`. -/
def maxRisk (routes : List RouteCandidate) : ℚ :=
  routes.foldl (fun a r => max a (meanRisk0 r)) (1/1000000000)

/-- The per-route body of `safetyScores`, with the set-wide maximum `M`:
`rel = (mean_risk||0)/M`; `score = Math.round((1 - Math.min(1, rel)) * 100)`;
result `Math.max(0, Math.min(100, score))`. -/
def scoreOf (M : ℚ) (r : RouteCandidate) : ℤ :=
  let rel : ℚ := meanRisk0 r / M
  let score : ℤ := jsRound ((1 - min 1 rel) * 100)
  max 0 (min 100 score)

/-- `safetyScores(routes)`: relative 0–100 safety score of every route. -/
def safetyScores (routes : List RouteCandidate) : List ℤ :=
  routes.map (scoreOf (maxRisk routes))

/-- A badge as produced by `safetyBadge`. -/
structure Badge where
  text : String
  klass : String
deriving DecidableEq

/-- `safetyBadge(score)`. -/
def safetyBadge (score : ℤ) : Badge :=
  if score ≥ 80 then ⟨"Safe", "badge badge-safe"⟩
  else if score ≥ 60 then ⟨"Moderate", "badge badge-moderate"⟩
  else ⟨"Caution", "badge badge-caution"⟩

/-- `nameForBeta(beta)`. -/
def nameForBeta (beta : ℚ) : String :=
  if beta = 0 then "Fastest Route"
  else if beta ≥ 1 then "Safest Route"
  else "Balanced Route"

/-- JavaScript `a || b` on a possibly-absent string: `undefined` and the
empty string are falsy. -/
def jsOrString (o : Option String) (dflt : String) : String :=
  match o with
  | none => dflt
  | some s => if s = "" then dflt else s

/-- The card title `r.name || nameForBeta(r.beta)` of
`renderRouteChoicesTemplate`. -/
def cardTitle (r : RouteCandidate) : String :=
  jsOrString r.name (nameForBeta r.beta)

/-- The card subtitle of `renderRouteChoicesTemplate` (lines 243–246):
`r.beta === 0 ? "Direct route optimized for walk" : r.beta >= 1 ?
"Maximum safety route for walk" : "Good compromise between speed and safety
for walk"`.  Note the literal strings always say "walk". -/
def cardSubtitle (r : RouteCandidate) : String :=
  if r.beta = 0 then "Direct route optimized for walk"
  else if r.beta ≥ 1 then "Maximum safety route for walk"
  else "Good compromise between speed and safety for walk"

/-- `MODE_SPEEDS = { walk: 1.3, bike: 4.5, drive: 11.0 }` as a lookup that is
`none` for any other key (JS property access gives `undefined`). -/
def MODE_SPEEDS (mode : String) : Option ℚ :=
  if mode = "walk" then some (13/10)
  else if mode = "bike" then some (9/2)
  else if mode = "drive" then some 11
  else none

/-- `MODE_SPEEDS[mode] || MODE_SPEEDS.walk` from `renderRouteChoicesTemplate`.
All stored speeds are nonzero, so `||` only fires on a missing key. -/
def effectiveSpeed (mode : String) : ℚ :=
  (MODE_SPEEDS mode).getD (13/10)

/-- `etaSec = length_m / speeds` from `renderRouteChoicesTemplate`. -/
def etaSec (r : RouteCandidate) (mode : String) : ℚ :=
  length0 r / effectiveSpeed mode

/-- `fmtMinutes(seconds)`: whole minutes, round to nearest, suffixed `m`. -/
def fmtMinutes (seconds : ℚ) : String :=
  toString (jsRound (seconds / 60)) ++ "m"

/-- The ETA text rendered on a route card. -/
def etaDisplay (r : RouteCandidate) (mode : String) : String :=
  fmtMinutes (etaSec r mode)

/-! ## Properties of the scoring engine -/

lemma init_le_foldl_max (l : List RouteCandidate) (a : ℚ) :
    a ≤ l.foldl (fun x r => max x (meanRisk0 r)) a := by
  induction l generalizing a with
  | nil => exact le_rfl
  | cons h t ih => exact le_trans (le_max_left a (meanRisk0 h)) (ih _)

lemma mem_le_foldl_max (l : List RouteCandidate) (a : ℚ) (r : RouteCandidate)
    (hr : r ∈ l) : meanRisk0 r ≤ l.foldl (fun x s => max x (meanRisk0 s)) a := by
  induction l generalizing a with
  | nil => cases hr
  | cons h t ih =>
    rcases List.mem_cons.mp hr with rfl | hmem
    · exact le_trans (le_max_right a (meanRisk0 r)) (init_le_foldl_max t _)
    · exact ih _ hmem

lemma epsilon_le_maxRisk (routes : List RouteCandidate) :
    (1/1000000000 : ℚ) ≤ maxRisk routes :=
  init_le_foldl_max routes _

lemma maxRisk_pos (routes : List RouteCandidate) : 0 < maxRisk routes :=
  lt_of_lt_of_le (by norm_num) (epsilon_le_maxRisk routes)

lemma jsRound_mono {x y : ℚ} (h : x ≤ y) : jsRound x ≤ jsRound y :=
  Int.floor_le_floor (by linarith)

lemma scoreOf_antitone {M : ℚ} (hM : 0 < M) {a b : RouteCandidate}
    (h : meanRisk0 b ≤ meanRisk0 a) : scoreOf M a ≤ scoreOf M b := by
  unfold scoreOf
  have hrel : meanRisk0 b / M ≤ meanRisk0 a / M := by gcongr
  have hmin : min 1 (meanRisk0 b / M) ≤ min 1 (meanRisk0 a / M) :=
    min_le_min le_rfl hrel
  have hsub : (1 - min 1 (meanRisk0 a / M)) * 100 ≤
      (1 - min 1 (meanRisk0 b / M)) * 100 := by nlinarith
  have hround := jsRound_mono hsub
  exact max_le_max le_rfl (min_le_min le_rfl hround)

lemma scoreOf_zero_risk {M : ℚ} (r : RouteCandidate)
    (h : meanRisk0 r = 0) : scoreOf M r = 100 := by
  unfold scoreOf
  rw [h]
  norm_num [jsRound]

lemma scoreOf_bounds (M : ℚ) (r : RouteCandidate) :
    0 ≤ scoreOf M r ∧ scoreOf M r ≤ 100 := by
  unfold scoreOf
  refine ⟨le_max_left _ _, max_le (by norm_num) (min_le_left _ _)⟩

lemma safetyScores_length (routes : List RouteCandidate) :
    (safetyScores routes).length = routes.length := by
  simp [safetyScores]

lemma safetyScores_get (routes : List RouteCandidate) (i : ℕ)
    (hi : i < routes.length) :
    (safetyScores routes).get ⟨i, (safetyScores_length routes).symm ▸ hi⟩ =
      scoreOf (maxRisk routes) (routes.get ⟨i, hi⟩) := by
  simp [safetyScores]

/-- A small concrete route candidate used to evaluate the definitions. -/
def mkRoute (beta mr : ℚ) : RouteCandidate :=
  ⟨beta, none, "#1d4ed8", ⟨some 1000, some mr, 0, 0⟩⟩

/-- Three routes with mean risks 0, 5 and 10 — the instance named by the
spec's testable property. -/
def demoRoutes : List RouteCandidate :=
  [mkRoute 0 0, mkRoute (1/2) 5, mkRoute 1 10]

/-- C2: the safety scores produced by `safetyScores` are antitone in
`mean_risk` (a route with larger-or-equal mean risk never scores higher), a
route with `mean_risk` 0 scores exactly 100, and every score lies in
[0, 100]. -/
theorem safetyScores_antitone_in_meanRisk (routes : List RouteCandidate)
    (i j : ℕ) (hi : i < routes.length) (hj : j < routes.length) :
    (meanRisk0 (routes.get ⟨j, hj⟩) ≤ meanRisk0 (routes.get ⟨i, hi⟩) →
      (safetyScores routes).get ⟨i, (safetyScores_length routes).symm ▸ hi⟩ ≤
        (safetyScores routes).get ⟨j, (safetyScores_length routes).symm ▸ hj⟩) ∧
    (meanRisk0 (routes.get ⟨i, hi⟩) = 0 →
      (safetyScores routes).get ⟨i, (safetyScores_length routes).symm ▸ hi⟩ = 100) ∧
    (∀ s ∈ safetyScores routes, 0 ≤ s ∧ s ≤ 100) := by
  refine ⟨?_, ?_, ?_⟩
  · intro hle
    rw [safetyScores_get, safetyScores_get]
    exact scoreOf_antitone (maxRisk_pos routes) hle
  · intro h0
    rw [safetyScores_get]
    exact scoreOf_zero_risk _ h0
  · intro s hs
    simp only [safetyScores, List.mem_map] at hs
    obtain ⟨r, _, rfl⟩ := hs
    exact scoreOf_bounds _ r

/-- Witness for C2 at mean risks {0, 5, 10}: score of the risk-10 route is at
most the score of the risk-5 route, which is at most the score of the risk-0
route, and the risk-0 route scores 100. -/
theorem safetyScores_antitone_in_meanRisk_witness :
    ((safetyScores demoRoutes).get ⟨2, by decide⟩ ≤
      (safetyScores demoRoutes).get ⟨1, by decide⟩) ∧
    ((safetyScores demoRoutes).get ⟨1, by decide⟩ ≤
      (safetyScores demoRoutes).get ⟨0, by decide⟩) ∧
    ((safetyScores demoRoutes).get ⟨0, by decide⟩ = 100) := by
  have h21 := safetyScores_antitone_in_meanRisk demoRoutes 2 1 (by decide) (by decide)
  have h10 := safetyScores_antitone_in_meanRisk demoRoutes 1 0 (by decide) (by decide)
  have h00 := safetyScores_antitone_in_meanRisk demoRoutes 0 0 (by decide) (by decide)
  refine ⟨h21.1 ?_, h10.1 ?_, h00.2.1 ?_⟩ <;>
    norm_num [demoRoutes, mkRoute, meanRisk0]

/-- C3: when every route's mean risk is 0 the divisor `maxRisk` is still
positive (floored at the epsilon 1e-9, so no division by zero), and every
route's safety score equals 100. -/
theorem safetyScores_all_zero_risk (routes : List RouteCandidate)
    (h : ∀ r ∈ routes, meanRisk0 r = 0) :
    (1/1000000000 : ℚ) ≤ maxRisk routes ∧ 0 < maxRisk routes ∧
      safetyScores routes = routes.map (fun _ => 100) := by
  refine ⟨epsilon_le_maxRisk routes, maxRisk_pos routes, ?_⟩
  unfold safetyScores
  exact List.map_congr_left fun r hr => scoreOf_zero_risk r (h r hr)

/-- Witness for C3: two routes, one with `mean_risk: 0` and one with the
field absent, both score 100. -/
theorem safetyScores_all_zero_risk_witness :
    0 < maxRisk [mkRoute 0 0, ⟨1, none, "", ⟨none, none, 0, 0⟩⟩] ∧
      safetyScores [mkRoute 0 0, ⟨1, none, "", ⟨none, none, 0, 0⟩⟩] = [100, 100] := by
  have h := safetyScores_all_zero_risk [mkRoute 0 0, ⟨1, none, "", ⟨none, none, 0, 0⟩⟩]
    (by
      intro r hr
      rcases List.mem_cons.mp hr with rfl | hr2
      · simp [mkRoute, meanRisk0]
      · rcases List.mem_singleton.mp hr2 with rfl
        simp [meanRisk0])
  exact ⟨h.2.1, by rw [h.2.2]; rfl⟩

/-- C4: `safetyBadge` assigns tier Safe exactly when the score is at least
80, Moderate exactly when it is in [60, 80), and Caution exactly when it is
below 60; in particular 80 → Safe, 79 → Moderate, 60 → Moderate,
59 → Caution. -/
theorem safetyBadge_tiers (s : ℤ) (h0 : 0 ≤ s) (h100 : s ≤ 100) :
    ((safetyBadge s).text = "Safe" ↔ 80 ≤ s) ∧
    ((safetyBadge s).text = "Moderate" ↔ 60 ≤ s ∧ s < 80) ∧
    ((safetyBadge s).text = "Caution" ↔ s < 60) ∧
    (safetyBadge 80).text = "Safe" ∧ (safetyBadge 79).text = "Moderate" ∧
    (safetyBadge 60).text = "Moderate" ∧ (safetyBadge 59).text = "Caution" := by
  refine ⟨?_, ?_, ?_, by decide, by decide, by decide, by decide⟩ <;>
    · unfold safetyBadge
      split_ifs with h1 h2 <;> simp <;> omega

/-- Witness for C4 at s = 80. -/
theorem safetyBadge_tiers_witness :
    (safetyBadge 80).text = "Safe" ↔ (80 : ℤ) ≤ 80 :=
  (safetyBadge_tiers 80 (by decide) (by decide)).1

/-! ## Rendered route cards (`renderRouteChoicesTemplate`) -/

/-- The textual content of one card built by `renderRouteChoicesTemplate`:
the fields the specification talks about. -/
structure Card where
  title : String
  badge : Badge
  etaText : String
  subtitle : String
deriving DecidableEq

/-- One iteration of the `routes.forEach` body of
`renderRouteChoicesTemplate`, with the set-wide maximum risk `M`. -/
def buildCard (M : ℚ) (mode : String) (r : RouteCandidate) : Card :=
  { title := cardTitle r
    badge := safetyBadge (scoreOf M r)
    etaText := etaDisplay r mode
    subtitle := cardSubtitle r }

/-- `renderRouteChoicesTemplate(routes, mode)`: the ordered list of cards
appended to the `route-choices` container. -/
def renderRouteChoicesTemplate (routes : List RouteCandidate) (mode : String) :
    List Card :=
  routes.map (buildCard (maxRisk routes) mode)

/-- C6: for a route whose `length_m` is present and non-negative and for each
supported mode, the displayed ETA is `length_m` divided by that mode's fixed
speed constant, in whole minutes rounded to nearest. -/
theorem etaDisplay_supported_modes (r : RouteCandidate) (mode : String)
    (L : ℚ) (hlen : r.stats.length_m = some L) (_hL : 0 ≤ L)
    (hmode : mode = "walk" ∨ mode = "bike" ∨ mode = "drive") :
    ∃ v : ℚ, MODE_SPEEDS mode = some v ∧
      etaDisplay r mode = toString (jsRound (L / v / 60)) ++ "m" := by
  rcases hmode with rfl | rfl | rfl <;>
    exact ⟨_, rfl, by simp [etaDisplay, fmtMinutes, etaSec, effectiveSpeed,
      MODE_SPEEDS, length0, hlen]⟩

/-- Witness for C6: a 1950 m route walked at 1.3 m/s is displayed as 25
minutes (1500 s). -/
theorem etaDisplay_supported_modes_witness :
    (0 : ℚ) ≤ 1950 ∧
      etaDisplay ⟨0, none, "", ⟨some 1950, some 0, 0, 0⟩⟩ "walk" = "25m" := by
  have h := etaDisplay_supported_modes ⟨0, none, "", ⟨some 1950, some 0, 0, 0⟩⟩
    "walk" 1950 rfl (by norm_num) (Or.inl rfl)
  obtain ⟨v, hv, he⟩ := h
  refine ⟨by norm_num, ?_⟩
  have hv13 : MODE_SPEEDS "walk" = some ((13 : ℚ)/10) := rfl
  rw [hv13] at hv
  injection hv with hv
  rw [he, ← hv]
  have h25 : jsRound ((1950 : ℚ) / (13/10) / 60) = 25 := by norm_num [jsRound]
  rw [h25]
  rfl

/-- A balanced-beta candidate without a server-supplied name, used as the C7
counterexample input. -/
def balancedRoute : RouteCandidate := ⟨1/2, none, "#16a34a", ⟨some 1000, some 1, 0, 0⟩⟩

/-- C7 counterexample: rendering `balancedRoute` with active mode "bike"
produces the subtitle "Good compromise between speed and safety for walk",
not "... for bike" as the claim requires; the literal mode text is fixed. -/
theorem cardSubtitle_ignores_mode_cex :
    (buildCard (maxRisk [balancedRoute]) "bike" balancedRoute).subtitle =
        "Good compromise between speed and safety for walk" ∧
      (buildCard (maxRisk [balancedRoute]) "bike" balancedRoute).subtitle ≠
        "Good compromise between speed and safety for bike" := by
  constructor
  · show cardSubtitle balancedRoute = _
    rw [cardSubtitle, if_neg (by norm_num [balancedRoute]),
      if_neg (by norm_num [balancedRoute])]
  · show cardSubtitle balancedRoute ≠ _
    rw [cardSubtitle, if_neg (by norm_num [balancedRoute]),
      if_neg (by norm_num [balancedRoute])]
    decide

/-- C7 amended: the beta three-way split determines title and subtitle only
when the server supplied no (nonempty) name, and the subtitle's mode text is
the fixed word "walk", independent of the active travel mode. -/
theorem card_title_subtitle_amended (r : RouteCandidate) (M : ℚ)
    (mode mode2 : String) :
    ((r.name = none ∨ r.name = some "") →
      (buildCard M mode r).title =
        (if r.beta = 0 then "Fastest Route"
         else if r.beta ≥ 1 then "Safest Route" else "Balanced Route")) ∧
    (∀ s, r.name = some s → s ≠ "" → (buildCard M mode r).title = s) ∧
    (buildCard M mode r).subtitle = (buildCard M mode2 r).subtitle ∧
    (buildCard M mode r).subtitle =
      (if r.beta = 0 then "Direct route optimized for walk"
       else if r.beta ≥ 1 then "Maximum safety route for walk"
       else "Good compromise between speed and safety for walk") := by
  refine ⟨?_, ?_, rfl, rfl⟩
  · rintro (h | h) <;>
      simp [buildCard, cardTitle, jsOrString, h, nameForBeta]
  · intro s hs hne
    simp [buildCard, cardTitle, jsOrString, hs, hne]

/-- Witness for C7 (amended) on `balancedRoute` with mode "bike": the title
falls back to the beta split and the subtitle matches the "walk" text. -/
theorem card_title_subtitle_amended_witness :
    (buildCard 1 "bike" balancedRoute).title = "Balanced Route" ∧
      (buildCard 1 "bike" balancedRoute).subtitle = (buildCard 1 "drive" balancedRoute).subtitle := by
  have h := card_title_subtitle_amended balancedRoute 1 "bike" "drive"
  refine ⟨?_, h.2.2.1⟩
  have ht := h.1 (Or.inl rfl)
  rw [ht, if_neg (by norm_num [balancedRoute]), if_neg (by norm_num [balancedRoute])]

/-! ## Delta formatting (`renderRouteChoices`, single-card variant) -/

/-- `detourTxt` of `renderRouteChoices`: `Math.abs(detour) < 1 ? "same
distance as β=0" : detour > 0 ? "+.. m" : ".. m"` (the numeric part is
`detour.toFixed(0)`, whose rounding is `jsRound`). -/
def fmtDetour (d : ℚ) : String :=
  if |d| < 1 then "same distance as β=0"
  else if 0 < d then "+" ++ toString (jsRound d) ++ " m"
  else toString (jsRound d) ++ " m"

/-- `riskTxt` of `renderRouteChoices`: tolerance branch, then
`riskDelta < 0 ? "−" + Math.abs(riskDelta).toFixed(0) + " m·risk" :
"+" + riskDelta.toFixed(0) + " m·risk"` (the negative sign is the Unicode
minus the source embeds). -/
def fmtRisk (d : ℚ) : String :=
  if |d| < 1 then "same risk as β=0"
  else if d < 0 then "−" ++ toString (jsRound |d|) ++ " m·risk"
  else "+" ++ toString (jsRound d) ++ " m·risk"

lemma append_m_ne_same (x : String) : x ++ " m" ≠ "same distance as β=0" := by
  intro h
  have hd := congrArg String.data h
  rw [String.data_append] at hd
  have hl := congrArg List.getLast? hd
  rw [List.getLast?_append] at hl
  simp at hl

lemma append_mrisk_ne_same (x : String) : x ++ " m·risk" ≠ "same risk as β=0" := by
  intro h
  have hd := congrArg String.data h
  rw [String.data_append] at hd
  have hl := congrArg List.getLast? hd
  rw [List.getLast?_append] at hl
  simp at hl

/-- C9: the tolerance text appears exactly when the delta's absolute value is
below 1, for both the detour and the risk delta; concretely, 0.4 renders as
"same distance as β=0", 120 as "+120 m" and −120 as "-120 m". -/
theorem deltaFormatting (d : ℚ) :
    (fmtDetour d = "same distance as β=0" ↔ |d| < 1) ∧
    (fmtRisk d = "same risk as β=0" ↔ |d| < 1) ∧
    fmtDetour (2/5) = "same distance as β=0" ∧
    fmtRisk (2/5) = "same risk as β=0" ∧
    fmtDetour 120 = "+120 m" ∧
    fmtDetour (-120) = "-120 m" ∧
    fmtRisk 120 = "+120 m·risk" ∧
    fmtRisk (-120) = "−120 m·risk" := by
  have h120 : jsRound (120 : ℚ) = 120 := by norm_num [jsRound]
  have hm120 : jsRound (-120 : ℚ) = -120 := by norm_num [jsRound]
  have habs : |(-120 : ℚ)| = 120 := by norm_num
  refine ⟨?_, ?_, ?_, ?_, ?_, ?_, ?_, ?_⟩
  · constructor
    · intro h
      by_contra hlt
      rw [fmtDetour, if_neg hlt] at h
      split_ifs at h with hpos
      · exact append_m_ne_same _ h
      · exact append_m_ne_same _ h
    · intro h
      rw [fmtDetour, if_pos h]
  · constructor
    · intro h
      by_contra hlt
      rw [fmtRisk, if_neg hlt] at h
      split_ifs at h with hneg
      · exact append_mrisk_ne_same _ h
      · exact append_mrisk_ne_same _ h
    · intro h
      rw [fmtRisk, if_pos h]
  · rw [fmtDetour, if_pos (by rw [abs_lt]; constructor <;> norm_num)]
  · rw [fmtRisk, if_pos (by rw [abs_lt]; constructor <;> norm_num)]
  · rw [fmtDetour, if_neg (by norm_num), if_pos (by norm_num), h120]; rfl
  · rw [fmtDetour, if_neg (by norm_num), if_neg (by norm_num), hm120]; rfl
  · rw [fmtRisk, if_neg (by norm_num), if_neg (by norm_num), h120]; rfl
  · rw [fmtRisk, if_neg (by norm_num), if_pos (by norm_num), habs, h120]; rfl

/-- C10: any unrecognized mode string falls back to the walking speed
1.3 m/s, and a missing `length_m` is treated as 0 meters, giving a defined
"0m" ETA. -/
theorem etaFallbackMode (mode : String) (r : RouteCandidate)
    (h1 : mode ≠ "walk") (h2 : mode ≠ "bike") (h3 : mode ≠ "drive") :
    MODE_SPEEDS mode = none ∧ effectiveSpeed mode = 13/10 ∧
      (r.stats.length_m = none →
        length0 r = 0 ∧ etaSec r mode = 0 ∧ etaDisplay r mode = "0m") ∧
      (r.stats.length_m = some 0 → length0 r = 0) := by
  have hms : MODE_SPEEDS mode = none := by
    unfold MODE_SPEEDS
    rw [if_neg h1, if_neg h2, if_neg h3]
  refine ⟨hms, ?_, ?_, ?_⟩
  · rw [effectiveSpeed, hms]; rfl
  · intro hlen
    have hl0 : length0 r = 0 := by rw [length0, hlen]; rfl
    refine ⟨hl0, ?_, ?_⟩
    · rw [etaSec, hl0]; ring
    · rw [etaDisplay, etaSec, hl0, fmtMinutes]
      have : ((0 : ℚ) / effectiveSpeed mode) / 60 = 0 := by ring
      rw [this]
      have h0 : jsRound (0 : ℚ) = 0 := by norm_num [jsRound]
      rw [h0]; rfl
  · intro hlen
    rw [length0, hlen]; rfl

/-- Witness for C10 at mode "scooter" with an absent `length_m`. -/
theorem etaFallbackMode_witness :
    effectiveSpeed "scooter" = 13/10 ∧
      etaDisplay ⟨0, none, "", ⟨none, none, 0, 0⟩⟩ "scooter" = "0m" := by
  have h := etaFallbackMode "scooter" ⟨0, none, "", ⟨none, none, 0, 0⟩⟩
    (by decide) (by decide) (by decide)
  exact ⟨h.2.1, (h.2.2.1 rfl).2.2⟩

/-! ## Coordinate parsing (`tryParseLatLon`)

The regex `^([+-]?\d+(\.\d+)?)[,\s]+([+-]?\d+(\.\d+)?)$` is embedded as a
deterministic greedy matcher over `List Char`.  The only backtracking the
regex engine can perform on this pattern is abandoning the optional fraction
group `(\.\d+)?` when the '.' is not followed by a digit, which the matcher
reproduces by leaving the '.' unconsumed. -/

/-- ASCII whitespace of the regex class `\s` and of `String.prototype.trim`
(the Unicode extras are irrelevant to the claims). -/
def isWs (c : Char) : Bool :=
  c = ' ' || c = '\t' || c = '\n' || c = '\r' || c = '\x0b' || c = '\x0c'

/-- The separator class `[,\s]`. -/
def isSep (c : Char) : Bool := c = ',' || isWs c

/-- The digit class `\d` (ASCII only, as in JS). -/
def isDigit (c : Char) : Bool := '0' ≤ c && c ≤ '9'

/-- Numeric value of a digit character. -/
def digitVal (c : Char) : ℕ := c.toNat - '0'.toNat

/-- Greedy `\d*`: the longest digit prefix and the rest. -/
def takeDigits : List Char → List Char × List Char
  | [] => ([], [])
  | c :: cs =>
    if isDigit c then
      let p := takeDigits cs
      (c :: p.1, p.2)
    else ([], c :: cs)

/-- Base-10 value of a digit string. -/
def digitsToNat (ds : List Char) : ℕ :=
  ds.foldl (fun a c => 10 * a + digitVal c) 0

/-- `[+-]?`: optional sign, as a multiplier plus the rest. -/
def parseSign (cs : List Char) : ℚ × List Char :=
  match cs with
  | c :: t => if c = '+' then (1, t) else if c = '-' then (-1, t) else (1, c :: t)
  | [] => (1, [])

/-- The digits-and-fraction part of the number match, after the optional
sign produced the multiplier `sgn`.  When the character after the integer
digits is a '.' not followed by a digit, the fraction group matches empty
and the '.' stays unconsumed (the regex engine's backtracking). -/
def parseNumAfter (sgn : ℚ) (cs : List Char) : Option (ℚ × List Char) :=
  let ip := takeDigits cs
  if ip.1 = [] then none
  else if ip.2.head? = some '.' then
    let fp := takeDigits ip.2.tail
    if fp.1 = [] then some (sgn * (digitsToNat ip.1 : ℚ), ip.2)
    else some (sgn * ((digitsToNat ip.1 : ℚ) + (digitsToNat fp.1 : ℚ) / 10 ^ fp.1.length), fp.2)
  else some (sgn * (digitsToNat ip.1 : ℚ), ip.2)

/-- Greedy `[+-]?\d+(\.\d+)?` with `parseFloat` semantics: the value and the
unconsumed rest; `none` when no integer digits are present. -/
def parseNum (cs : List Char) : Option (ℚ × List Char) :=
  parseNumAfter (parseSign cs).1 (parseSign cs).2

/-- Greedy `[,\s]+`: at least one separator, then as many as match. -/
def parseSeps (cs : List Char) : Option (List Char) :=
  match cs with
  | c :: t => if isSep c then some (t.dropWhile (fun d => isSep d)) else none
  | [] => none

/-- The anchored regex match together with the two `parseFloat` calls: the
lat/lon values exactly when the whole input is
`number`, `separators`, `number`. -/
def matchLatLon (cs : List Char) : Option (ℚ × ℚ) :=
  match parseNum cs with
  | none => none
  | some (lat, r1) =>
    match parseSeps r1 with
    | none => none
    | some r2 =>
      match parseNum r2 with
      | none => none
      | some (lon, r3) => if r3 = [] then some (lat, lon) else none

/-- `String.prototype.trim`. -/
def jsTrim (cs : List Char) : List Char :=
  ((cs.dropWhile (fun c => isWs c)).reverse.dropWhile (fun c => isWs c)).reverse

/-- `tryParseLatLon(text)`: falsy (empty) input gives null; otherwise trim,
match the regex, parse both coordinates and reject out-of-range values.
(`Number.isNaN` can never fire on a regex-matched float, so it is not
modelled separately.) -/
def tryParseLatLon (text : String) : Option (ℚ × ℚ) :=
  if text = "" then none
  else
    match matchLatLon (jsTrim text.data) with
    | none => none
    | some (lat, lon) =>
      if lat < -90 ∨ 90 < lat ∨ lon < -180 ∨ 180 < lon then none
      else some (lat, lon)

/-- The submit handler resolves a field with `tryParseLatLon` first and calls
the geocoding collaborator exactly when that returned null (`if (!o)`). -/
def resolveInvokesGeocode (q : String) : Bool := (tryParseLatLon q).isNone

/-- The character sequence of a number token `[+-]?\d+(\.\d+)?`. -/
def numChars (sg ip fp : List Char) : List Char :=
  sg ++ ip ++ (if fp = [] then [] else '.' :: fp)

/-- The value `parseFloat` assigns to that token. -/
def numVal (sg ip fp : List Char) : ℚ :=
  (if sg = ['-'] then -1 else 1) *
    ((digitsToNat ip : ℚ) +
      (if fp = [] then 0 else (digitsToNat fp : ℚ) / 10 ^ fp.length))

/-- A well-formed number token: optional sign, at least one integer digit,
and a possibly-empty all-digit fraction. -/
def NumTok (sg ip fp : List Char) : Prop :=
  (sg = [] ∨ sg = ['+'] ∨ sg = ['-']) ∧ ip ≠ [] ∧
    (∀ c ∈ ip, isDigit c = true) ∧ (∀ c ∈ fp, isDigit c = true)

/-- `headNot p cs`: `cs` does not start with a `p` character. -/
def headNot (p : Char → Bool) : List Char → Prop
  | [] => True
  | c :: _ => p c = false

/-! ### Character-class facts -/

lemma ws_not_digit {c : Char} (h : isWs c = true) : isDigit c = false := by
  simp only [isWs, Bool.or_eq_true, decide_eq_true_eq] at h
  rcases h with (((((rfl | rfl) | rfl) | rfl) | rfl) | rfl) <;> decide

lemma sep_not_digit {c : Char} (h : isSep c = true) : isDigit c = false := by
  simp only [isSep, isWs, Bool.or_eq_true, decide_eq_true_eq] at h
  rcases h with (rfl | (((((rfl | rfl) | rfl) | rfl) | rfl) | rfl)) <;> decide

lemma sep_ne_dot {c : Char} (h : isSep c = true) : c ≠ '.' := by
  simp only [isSep, isWs, Bool.or_eq_true, decide_eq_true_eq] at h
  rcases h with (rfl | (((((rfl | rfl) | rfl) | rfl) | rfl) | rfl)) <;> decide

lemma digit_not_ws {c : Char} (h : isDigit c = true) : isWs c = false := by
  by_contra hw
  rw [Bool.not_eq_false] at hw
  rw [ws_not_digit hw] at h
  exact Bool.noConfusion h

lemma digit_not_sep {c : Char} (h : isDigit c = true) : isSep c = false := by
  by_contra hs
  rw [Bool.not_eq_false] at hs
  rw [sep_not_digit hs] at h
  exact Bool.noConfusion h

lemma digit_ne_plus {c : Char} (h : isDigit c = true) : c ≠ '+' := by
  rintro rfl; exact absurd h (by decide)

lemma digit_ne_minus {c : Char} (h : isDigit c = true) : c ≠ '-' := by
  rintro rfl; exact absurd h (by decide)

lemma digit_ne_dot {c : Char} (h : isDigit c = true) : c ≠ '.' := by
  rintro rfl; exact absurd h (by decide)

/-! ### List-scanning facts -/

lemma headNot_append_left {p : Char → Bool} {l l' : List Char}
    (hl : l ≠ []) (h : headNot p l) : headNot p (l ++ l') := by
  cases l with
  | nil => exact absurd rfl hl
  | cons c t => exact h

lemma headNot_of_all {p : Char → Bool} {cs : List Char}
    (hall : ∀ c ∈ cs, p c = false) : headNot p cs := by
  cases cs with
  | nil => trivial
  | cons c t => exact hall c (List.mem_cons_self c t)

lemma headNot_reverse_digits {l : List Char}
    (hall : ∀ c ∈ l, isDigit c = true) : headNot isWs l.reverse := by
  apply headNot_of_all
  intro c hc
  exact digit_not_ws (hall c (List.mem_reverse.mp hc))

lemma takeDigits_append (ds rest : List Char)
    (hds : ∀ c ∈ ds, isDigit c = true) (hr : headNot isDigit rest) :
    takeDigits (ds ++ rest) = (ds, rest) := by
  induction ds with
  | nil =>
    cases rest with
    | nil => rfl
    | cons c t =>
      have hc : isDigit c = false := hr
      simp [takeDigits, hc]
  | cons d ds' ih =>
    have hd : isDigit d = true := hds d (List.mem_cons_self d ds')
    have ih' := ih fun c hc => hds c (List.mem_cons_of_mem d hc)
    simp [takeDigits, hd, ih']

lemma dropWhile_sep_append (t rest : List Char)
    (ht : ∀ c ∈ t, isSep c = true) (hr : headNot isSep rest) :
    (t ++ rest).dropWhile (fun d => isSep d) = rest := by
  induction t with
  | nil =>
    cases rest with
    | nil => rfl
    | cons c t' =>
      have hc : isSep c = false := hr
      simp [List.dropWhile, hc]
  | cons c t' ih =>
    have hc : isSep c = true := ht c (List.mem_cons_self c t')
    have ih' := ih fun d hd => ht d (List.mem_cons_of_mem c hd)
    simp [List.dropWhile, hc, ih']

lemma dropWhile_headNot (p : Char → Bool) (cs : List Char)
    (h : headNot p cs) : cs.dropWhile p = cs := by
  cases cs with
  | nil => rfl
  | cons c t =>
    have hc : p c = false := h
    simp [List.dropWhile, hc]

lemma parseSign_digit {c : Char} (t : List Char) (h : isDigit c = true) :
    parseSign (c :: t) = (1, c :: t) := by
  simp [parseSign, digit_ne_plus h, digit_ne_minus h]

/-! ### The greedy matcher on a well-formed token stream -/

lemma numChars_noFrac (sg ip : List Char) : numChars sg ip [] = sg ++ ip := by
  simp [numChars]

lemma numChars_frac (sg ip fp : List Char) (hf : fp ≠ []) :
    numChars sg ip fp = sg ++ ip ++ '.' :: fp := by
  simp [numChars, hf]

lemma head_ne_dot_of_headNot {rest : List Char}
    (hr2 : headNot (fun c => c == '.') rest) : rest.head? ≠ some '.' := by
  cases rest with
  | nil => simp
  | cons c t =>
    have hb : (c == '.') = false := hr2
    have hcne : c ≠ '.' := by simpa using hb
    simp [hcne]

lemma parseNumAfter_noFrac (sgn : ℚ) (ip rest : List Char) (hip : ip ≠ [])
    (hipd : ∀ c ∈ ip, isDigit c = true) (hr1 : headNot isDigit rest)
    (hr2 : headNot (fun c => c == '.') rest) :
    parseNumAfter sgn (ip ++ rest) = some (sgn * (digitsToNat ip : ℚ), rest) := by
  have htd := takeDigits_append ip rest hipd hr1
  have hhead := head_ne_dot_of_headNot hr2
  unfold parseNumAfter
  simp only [htd]
  rw [if_neg hip, if_neg hhead]

lemma parseNumAfter_frac (sgn : ℚ) (ip fp rest : List Char) (hip : ip ≠ [])
    (hipd : ∀ c ∈ ip, isDigit c = true) (hfp : fp ≠ [])
    (hfpd : ∀ c ∈ fp, isDigit c = true) (hr1 : headNot isDigit rest) :
    parseNumAfter sgn (ip ++ '.' :: fp ++ rest) =
      some (sgn * ((digitsToNat ip : ℚ) + (digitsToNat fp : ℚ) / 10 ^ fp.length),
        rest) := by
  have hassoc : ip ++ '.' :: fp ++ rest = ip ++ ('.' :: (fp ++ rest)) := by simp
  have htd1 : takeDigits (ip ++ ('.' :: (fp ++ rest))) = (ip, '.' :: (fp ++ rest)) :=
    takeDigits_append _ _ hipd (show isDigit '.' = false by decide)
  have htd2 : takeDigits (fp ++ rest) = (fp, rest) :=
    takeDigits_append _ _ hfpd hr1
  rw [hassoc]
  unfold parseNumAfter
  simp only [htd1]
  rw [if_neg hip]
  simp only [List.head?_cons, List.tail_cons, if_pos rfl]
  simp only [htd2]
  rw [if_neg hfp]
  simp

lemma parseSign_numChars (sg ip fp rest : List Char) (h : NumTok sg ip fp) :
    parseSign (numChars sg ip fp ++ rest) =
      ((if sg = ['-'] then (-1 : ℚ) else 1),
        (ip ++ (if fp = [] then [] else '.' :: fp)) ++ rest) := by
  obtain ⟨hsg, hip, hipd, -⟩ := h
  rcases hsg with rfl | rfl | rfl
  · cases ip with
    | nil => exact absurd rfl hip
    | cons d ip' =>
      have hd := hipd d (List.mem_cons_self d ip')
      by_cases hf : fp = []
      · subst hf
        rw [numChars_noFrac]
        simp only [List.nil_append, List.cons_append]
        rw [parseSign_digit _ hd]
        simp
      · rw [numChars_frac _ _ _ hf]
        simp only [List.nil_append, List.cons_append, List.append_assoc]
        rw [parseSign_digit _ hd]
        simp [hf]
  · by_cases hf : fp = []
    · subst hf
      rw [numChars_noFrac]
      simp [parseSign]
    · rw [numChars_frac _ _ _ hf]
      simp [parseSign, hf]
  · by_cases hf : fp = []
    · subst hf
      rw [numChars_noFrac]
      simp [parseSign]
    · rw [numChars_frac _ _ _ hf]
      simp [parseSign, hf]

lemma parseNum_numChars (sg ip fp rest : List Char) (h : NumTok sg ip fp)
    (hr1 : headNot isDigit rest) (hr2 : headNot (fun c => c == '.') rest) :
    parseNum (numChars sg ip fp ++ rest) = some (numVal sg ip fp, rest) := by
  have hps := parseSign_numChars sg ip fp rest h
  obtain ⟨hsg, hip, hipd, hfpd⟩ := h
  unfold parseNum
  rw [hps]
  by_cases hf : fp = []
  · subst hf
    have hred : (ip ++ (if ([] : List Char) = [] then [] else '.' :: [])) ++ rest =
        ip ++ rest := by simp
    rw [hred, parseNumAfter_noFrac _ _ _ hip hipd hr1 hr2]
    simp [numVal]
  · have hred : (ip ++ (if fp = [] then [] else '.' :: fp)) ++ rest =
        ip ++ '.' :: fp ++ rest := by simp [hf]
    rw [hred, parseNumAfter_frac _ _ _ _ hip hipd hf hfpd hr1]
    simp [numVal, hf]

lemma parseSeps_append (sep rest : List Char) (hne : sep ≠ [])
    (hall : ∀ c ∈ sep, isSep c = true) (hr : headNot isSep rest) :
    parseSeps (sep ++ rest) = some rest := by
  cases sep with
  | nil => exact absurd rfl hne
  | cons c t =>
    have hc := hall c (List.mem_cons_self c t)
    have ht := fun d hd => hall d (List.mem_cons_of_mem c hd)
    simp only [List.cons_append, parseSeps, if_pos hc]
    rw [dropWhile_sep_append t rest ht hr]

lemma numChars_ne_nil {sg ip fp : List Char} (h : NumTok sg ip fp) :
    numChars sg ip fp ≠ [] := by
  obtain ⟨-, hip, -, -⟩ := h
  unfold numChars
  intro hco
  rcases List.append_eq_nil.mp hco with ⟨h1, -⟩
  exact hip (List.append_eq_nil.mp h1).2

lemma headNot_isSep_numChars (sg ip fp : List Char) (h : NumTok sg ip fp) :
    headNot isSep (numChars sg ip fp) := by
  obtain ⟨hsg, hip, hipd, -⟩ := h
  rcases hsg with rfl | rfl | rfl
  · cases ip with
    | nil => exact absurd rfl hip
    | cons d ip' =>
      have hd := hipd d (List.mem_cons_self d ip')
      show headNot isSep (numChars [] (d :: ip') fp)
      unfold numChars
      simp only [List.nil_append, List.cons_append]
      exact digit_not_sep hd
  · show isSep '+' = false
    decide
  · show isSep '-' = false
    decide

lemma numChars_headNot_ws (sg ip fp : List Char) (h : NumTok sg ip fp) :
    headNot isWs (numChars sg ip fp) := by
  obtain ⟨hsg, hip, hipd, -⟩ := h
  rcases hsg with rfl | rfl | rfl
  · cases ip with
    | nil => exact absurd rfl hip
    | cons d ip' =>
      have hd := hipd d (List.mem_cons_self d ip')
      show headNot isWs (numChars [] (d :: ip') fp)
      unfold numChars
      simp only [List.nil_append, List.cons_append]
      exact digit_not_ws hd
  · show isWs '+' = false
    decide
  · show isWs '-' = false
    decide

lemma reverse_ne_nil {l : List Char} (h : l ≠ []) : l.reverse ≠ [] := by
  simpa using h

lemma numChars_reverse_headNot_ws (sg ip fp : List Char) (h : NumTok sg ip fp) :
    headNot isWs (numChars sg ip fp).reverse := by
  obtain ⟨hsg, hip, hipd, hfpd⟩ := h
  by_cases hf : fp = []
  · subst hf
    rw [numChars_noFrac, List.reverse_append]
    exact headNot_append_left (reverse_ne_nil hip) (headNot_reverse_digits hipd)
  · rw [numChars_frac _ _ _ hf, List.reverse_append, List.reverse_cons]
    exact headNot_append_left
      (by simp)
      (headNot_append_left (reverse_ne_nil hf) (headNot_reverse_digits hfpd))

lemma jsTrim_eq_self (cs : List Char) (h1 : headNot isWs cs)
    (h2 : headNot isWs cs.reverse) : jsTrim cs = cs := by
  unfold jsTrim
  rw [dropWhile_headNot _ _ h1, dropWhile_headNot _ _ h2, List.reverse_reverse]

lemma append_ne_nil_left {l l' : List Char} (h : l ≠ []) : l ++ l' ≠ [] :=
  fun hco => h (List.append_eq_nil.mp hco).1

lemma matchLatLon_tokens (sg1 ip1 fp1 sep sg2 ip2 fp2 : List Char)
    (h1 : NumTok sg1 ip1 fp1) (h2 : NumTok sg2 ip2 fp2)
    (hne : sep ≠ []) (hall : ∀ c ∈ sep, isSep c = true) :
    matchLatLon (numChars sg1 ip1 fp1 ++ (sep ++ numChars sg2 ip2 fp2)) =
      some (numVal sg1 ip1 fp1, numVal sg2 ip2 fp2) := by
  have hsepd : headNot isDigit (sep ++ numChars sg2 ip2 fp2) := by
    cases sep with
    | nil => exact absurd rfl hne
    | cons c t => exact sep_not_digit (hall c (List.mem_cons_self c t))
  have hsepdot : headNot (fun c => c == '.') (sep ++ numChars sg2 ip2 fp2) := by
    cases sep with
    | nil => exact absurd rfl hne
    | cons c t =>
      show (c == '.') = false
      exact beq_eq_false_iff_ne.mpr (sep_ne_dot (hall c (List.mem_cons_self c t)))
  have hp1 := parseNum_numChars sg1 ip1 fp1 (sep ++ numChars sg2 ip2 fp2) h1
    hsepd hsepdot
  have hseps := parseSeps_append sep (numChars sg2 ip2 fp2) hne hall
    (headNot_isSep_numChars _ _ _ h2)
  have hp2 : parseNum (numChars sg2 ip2 fp2) = some (numVal sg2 ip2 fp2, []) := by
    have h := parseNum_numChars sg2 ip2 fp2 [] h2 trivial trivial
    simpa using h
  simp only [matchLatLon, hp1, hseps, hp2]
  simp

/-- The textual form `<number><separators><number>` handed to the resolver. -/
def latLonInput (sg1 ip1 fp1 sep sg2 ip2 fp2 : List Char) : String :=
  String.mk (numChars sg1 ip1 fp1 ++ (sep ++ numChars sg2 ip2 fp2))

lemma tryParseLatLon_eval (sg1 ip1 fp1 sep sg2 ip2 fp2 : List Char)
    (h1 : NumTok sg1 ip1 fp1) (h2 : NumTok sg2 ip2 fp2)
    (hne : sep ≠ []) (hall : ∀ c ∈ sep, isSep c = true) :
    tryParseLatLon (latLonInput sg1 ip1 fp1 sep sg2 ip2 fp2) =
      (if numVal sg1 ip1 fp1 < -90 ∨ 90 < numVal sg1 ip1 fp1 ∨
          numVal sg2 ip2 fp2 < -180 ∨ 180 < numVal sg2 ip2 fp2 then none
       else some (numVal sg1 ip1 fp1, numVal sg2 ip2 fp2)) := by
  have hfulln : numChars sg1 ip1 fp1 ++ (sep ++ numChars sg2 ip2 fp2) ≠ [] :=
    append_ne_nil_left (numChars_ne_nil h1)
  have hnonempty : latLonInput sg1 ip1 fp1 sep sg2 ip2 fp2 ≠ "" := by
    intro hs
    exact hfulln (congrArg String.data hs)
  have hws : headNot isWs (numChars sg1 ip1 fp1 ++ (sep ++ numChars sg2 ip2 fp2)) :=
    headNot_append_left (numChars_ne_nil h1) (numChars_headNot_ws _ _ _ h1)
  have hwsrev : headNot isWs
      (numChars sg1 ip1 fp1 ++ (sep ++ numChars sg2 ip2 fp2)).reverse := by
    rw [List.reverse_append, List.reverse_append]
    exact headNot_append_left
      (append_ne_nil_left (reverse_ne_nil (numChars_ne_nil h2)))
      (headNot_append_left (reverse_ne_nil (numChars_ne_nil h2))
        (numChars_reverse_headNot_ws _ _ _ h2))
  have htrim := jsTrim_eq_self _ hws hwsrev
  have hmatch := matchLatLon_tokens sg1 ip1 fp1 sep sg2 ip2 fp2 h1 h2 hne hall
  unfold tryParseLatLon
  rw [if_neg hnonempty]
  show (match matchLatLon (jsTrim (numChars sg1 ip1 fp1 ++
      (sep ++ numChars sg2 ip2 fp2))) with
    | none => none
    | some (lat, lon) =>
      if lat < -90 ∨ 90 < lat ∨ lon < -180 ∨ 180 < lon then none
      else some (lat, lon)) = _
  rw [htrim]
  simp only [hmatch]

/-- C5: an input consisting of two decimal numbers joined by a nonempty run
of commas/whitespace parses to exactly that coordinate pair when the
latitude is within [-90, 90] and the longitude within [-180, 180], and the
submit flow then skips the geocoding collaborator; when either value is out
of range, `tryParseLatLon` returns null and the flow falls through to
geocoding. -/
theorem tryParseLatLon_resolver (sg1 ip1 fp1 sep sg2 ip2 fp2 : List Char)
    (h1 : NumTok sg1 ip1 fp1) (h2 : NumTok sg2 ip2 fp2)
    (hne : sep ≠ []) (hall : ∀ c ∈ sep, isSep c = true) :
    (-90 ≤ numVal sg1 ip1 fp1 → numVal sg1 ip1 fp1 ≤ 90 →
     -180 ≤ numVal sg2 ip2 fp2 → numVal sg2 ip2 fp2 ≤ 180 →
      tryParseLatLon (latLonInput sg1 ip1 fp1 sep sg2 ip2 fp2) =
          some (numVal sg1 ip1 fp1, numVal sg2 ip2 fp2) ∧
        resolveInvokesGeocode (latLonInput sg1 ip1 fp1 sep sg2 ip2 fp2) = false) ∧
    ((numVal sg1 ip1 fp1 < -90 ∨ 90 < numVal sg1 ip1 fp1 ∨
      numVal sg2 ip2 fp2 < -180 ∨ 180 < numVal sg2 ip2 fp2) →
      tryParseLatLon (latLonInput sg1 ip1 fp1 sep sg2 ip2 fp2) = none ∧
        resolveInvokesGeocode (latLonInput sg1 ip1 fp1 sep sg2 ip2 fp2) = true) := by
  have heval := tryParseLatLon_eval sg1 ip1 fp1 sep sg2 ip2 fp2 h1 h2 hne hall
  constructor
  · intro ha hb hc hd
    have hcond : ¬(numVal sg1 ip1 fp1 < -90 ∨ 90 < numVal sg1 ip1 fp1 ∨
        numVal sg2 ip2 fp2 < -180 ∨ 180 < numVal sg2 ip2 fp2) := by
      push_neg
      exact ⟨ha, hb, hc, hd⟩
    rw [heval, if_neg hcond]
    exact ⟨rfl, by unfold resolveInvokesGeocode; rw [heval, if_neg hcond]; rfl⟩
  · intro hor
    rw [heval, if_pos hor]
    exact ⟨rfl, by unfold resolveInvokesGeocode; rw [heval, if_pos hor]; rfl⟩

/-- Witness for C5: "38.64,-90.29" parses to that exact pair without
geocoding; "95,200" is rejected and falls through to geocoding. -/
theorem tryParseLatLon_resolver_witness :
    (tryParseLatLon "38.64,-90.29" =
        some (numVal [] ['3', '8'] ['6', '4'], numVal ['-'] ['9', '0'] ['2', '9']) ∧
      resolveInvokesGeocode "38.64,-90.29" = false) ∧
    (tryParseLatLon "95,200" = none ∧ resolveInvokesGeocode "95,200" = true) := by
  have hs1 : latLonInput [] ['3', '8'] ['6', '4'] [','] ['-'] ['9', '0'] ['2', '9'] =
      "38.64,-90.29" := rfl
  have hs2 : latLonInput [] ['9', '5'] [] [','] [] ['2', '0', '0'] [] = "95,200" := rfl
  have e1 : digitsToNat ['3', '8'] = 38 := by decide
  have e2 : digitsToNat ['6', '4'] = 64 := by decide
  have e3 : digitsToNat ['9', '0'] = 90 := by decide
  have e4 : digitsToNat ['2', '9'] = 29 := by decide
  have e5 : digitsToNat ['9', '5'] = 95 := by decide
  have hv1 : numVal [] ['3', '8'] ['6', '4'] = 966/25 := by
    rw [numVal, if_neg (by decide : ¬(([] : List Char) = ['-'])),
      if_neg (by decide : ¬(['6', '4'] = ([] : List Char)))]
    rw [e1, e2]
    norm_num
  have hv2 : numVal ['-'] ['9', '0'] ['2', '9'] = -9029/100 := by
    rw [numVal, if_pos rfl, if_neg (by decide : ¬(['2', '9'] = ([] : List Char)))]
    rw [e3, e4]
    norm_num
  have hv3 : numVal [] ['9', '5'] [] = 95 := by
    rw [numVal, if_neg (by decide : ¬(([] : List Char) = ['-'])), if_pos rfl]
    rw [e5]
    norm_num
  have hA := (tryParseLatLon_resolver [] ['3', '8'] ['6', '4'] [','] ['-'] ['9', '0']
      ['2', '9'] ⟨by decide, by decide, by decide, by decide⟩
      ⟨by decide, by decide, by decide, by decide⟩ (by decide) (by decide)).1
    (by rw [hv1]; norm_num) (by rw [hv1]; norm_num)
    (by rw [hv2]; norm_num) (by rw [hv2]; norm_num)
  have hB := (tryParseLatLon_resolver [] ['9', '5'] [] [','] [] ['2', '0', '0'] []
      ⟨by decide, by decide, by decide, by decide⟩
      ⟨by decide, by decide, by decide, by decide⟩ (by decide) (by decide)).2
    (Or.inr (Or.inl (by rw [hv3]; norm_num)))
  rw [hs1] at hA
  rw [hs2] at hB
  exact ⟨hA, hB⟩

/-! ## Display lifecycle: overlays, markers, and the submit flow

The Leaflet side effects are modelled as an event trace over an explicit
`DisplayState`; each mutation step of the single-threaded flow is one event,
so the intermediate states (`statesOf`) are exactly the observable points. -/

/-- One route overlay: the generation (which `drawMultiRoutes` call drew it)
and the candidate index within that call's result set. -/
structure Overlay where
  gen : ℕ
  idx : ℕ
deriving DecidableEq

/-- The observable display state: `originMarker`, `destMarker` and
`routeLayers`. -/
structure DisplayState where
  originMarker : Option (ℚ × ℚ)
  destMarker : Option (ℚ × ℚ)
  routeLayers : List Overlay
deriving DecidableEq

/-- Primitive display/network events of the client. -/
inductive Ev where
  | placeMarker (isDest : Bool) (lat lon : ℚ)
  | fitMarkers
  | routeRequest (olat olon dlat dlon : ℚ) (mode : String)
  | removeOverlay (o : Overlay)
  | drawOverlay (o : Overlay)
  | fitRoutes
  | renderCards
  | alertMsg (msg : String)
deriving DecidableEq

/-- Effect of one event on the display state.  `setMarker` places or moves
the marker in place; `layer.remove()` detaches one overlay; `addTo(map)`
plus `routeLayers.push` attaches one. -/
def applyEv (s : DisplayState) (e : Ev) : DisplayState :=
  match e with
  | .placeMarker isDest lat lon =>
    if isDest then { s with destMarker := some (lat, lon) }
    else { s with originMarker := some (lat, lon) }
  | .removeOverlay o => { s with routeLayers := s.routeLayers.erase o }
  | .drawOverlay o => { s with routeLayers := s.routeLayers ++ [o] }
  | _ => s

/-- Run a list of events in order. -/
def runEvs (s : DisplayState) : List Ev → DisplayState
  | [] => s
  | e :: es => runEvs (applyEv s e) es

/-- Every state the display passes through while running the events,
including the initial and final ones. -/
def statesOf (s : DisplayState) : List Ev → List DisplayState
  | [] => [s]
  | e :: es => s :: statesOf (applyEv s e) es

/-- `clearRoutes()`: `routeLayers.forEach(l => l.remove())` then reset. -/
def clearRoutesEvs (s : DisplayState) : List Ev :=
  s.routeLayers.map Ev.removeOverlay

/-- The overlays drawn for generation `gen` of a result set: one per
candidate, in order. -/
def overlaysFor (gen : ℕ) (data : RouteData) : List Overlay :=
  (List.range data.routes.length).map fun i => ⟨gen, i⟩

/-- `drawMultiRoutes(data)`: clear the previous overlays, draw one overlay
per candidate, fit the viewport to the drawn group, render the cards. -/
def drawMultiRoutesEvs (gen : ℕ) (data : RouteData) (s : DisplayState) : List Ev :=
  clearRoutesEvs s ++ (overlaysFor gen data).map Ev.drawOverlay ++
    [Ev.fitRoutes, Ev.renderCards]

lemma runEvs_append (s : DisplayState) (l1 l2 : List Ev) :
    runEvs s (l1 ++ l2) = runEvs (runEvs s l1) l2 := by
  induction l1 generalizing s with
  | nil => rfl
  | cons e es ih => exact ih (applyEv s e)

lemma runEvs_removeAll (s : DisplayState) (l : List Overlay)
    (h : s.routeLayers = l) :
    runEvs s (l.map Ev.removeOverlay) = { s with routeLayers := [] } := by
  induction l generalizing s with
  | nil => cases s; simp_all [runEvs]
  | cons o t ih =>
    show runEvs (applyEv s (Ev.removeOverlay o)) _ = _
    have hs : applyEv s (Ev.removeOverlay o) = { s with routeLayers := t } := by
      simp [applyEv, h, List.erase_cons_head]
    rw [hs, ih _ rfl]

lemma runEvs_draws (s : DisplayState) (os : List Overlay) :
    runEvs s (os.map Ev.drawOverlay) =
      { s with routeLayers := s.routeLayers ++ os } := by
  induction os generalizing s with
  | nil => cases s; simp [runEvs]
  | cons o t ih =>
    show runEvs (applyEv s (Ev.drawOverlay o)) _ = _
    rw [show applyEv s (Ev.drawOverlay o) =
      { s with routeLayers := s.routeLayers ++ [o] } from rfl, ih]
    simp

lemma runEvs_fitRender (s : DisplayState) :
    runEvs s [Ev.fitRoutes, Ev.renderCards] = s := rfl

lemma runEvs_drawMulti (gen : ℕ) (data : RouteData) (s : DisplayState) :
    runEvs s (drawMultiRoutesEvs gen data s) =
      { s with routeLayers := overlaysFor gen data } := by
  unfold drawMultiRoutesEvs clearRoutesEvs
  rw [runEvs_append, runEvs_append,
    runEvs_removeAll s s.routeLayers rfl, runEvs_draws, runEvs_fitRender]
  simp

lemma mem_statesOf_append {s st : DisplayState} {l1 l2 : List Ev}
    (h : st ∈ statesOf s (l1 ++ l2)) :
    st ∈ statesOf s l1 ∨ st ∈ statesOf (runEvs s l1) l2 := by
  induction l1 generalizing s with
  | nil => exact Or.inr h
  | cons e es ih =>
    rcases List.mem_cons.mp h with rfl | h2
    · exact Or.inl (List.mem_cons_self _ _)
    · rcases ih h2 with h3 | h3
      · exact Or.inl (List.mem_cons_of_mem _ h3)
      · exact Or.inr h3

lemma mem_statesOf_removals {s st : DisplayState} {l : List Overlay}
    (h : st ∈ statesOf s (l.map Ev.removeOverlay)) :
    ∀ o ∈ st.routeLayers, o ∈ s.routeLayers := by
  induction l generalizing s with
  | nil =>
    rcases List.mem_singleton.mp h with rfl
    exact fun o ho => ho
  | cons a t ih =>
    rcases List.mem_cons.mp h with rfl | h2
    · exact fun o ho => ho
    · intro o ho
      have hsub := ih h2 o ho
      have : (applyEv s (Ev.removeOverlay a)).routeLayers =
          s.routeLayers.erase a := rfl
      rw [this] at hsub
      exact List.erase_subset _ _ hsub

lemma mem_statesOf_draws {s st : DisplayState} {os : List Overlay}
    {P : Overlay → Prop}
    (hs : ∀ o ∈ s.routeLayers, P o) (hos : ∀ o ∈ os, P o)
    (h : st ∈ statesOf s (os.map Ev.drawOverlay)) :
    ∀ o ∈ st.routeLayers, P o := by
  induction os generalizing s with
  | nil =>
    rcases List.mem_singleton.mp h with rfl
    exact hs
  | cons a t ih =>
    rcases List.mem_cons.mp h with rfl | h2
    · exact hs
    · refine ih ?_ (fun o ho => hos o (List.mem_cons_of_mem a ho)) h2
      intro o ho
      have : (applyEv s (Ev.drawOverlay a)).routeLayers =
          s.routeLayers ++ [a] := rfl
      rw [this] at ho
      rcases List.mem_append.mp ho with h3 | h3
      · exact hs o h3
      · rcases List.mem_singleton.mp h3 with rfl
        exact hos _ (List.mem_cons_self _ _)

lemma overlaysFor_gen (gen : ℕ) (data : RouteData) :
    ∀ o ∈ overlaysFor gen data, o.gen = gen := by
  intro o ho
  simp only [overlaysFor, List.mem_map] at ho
  obtain ⟨i, -, rfl⟩ := ho
  rfl

/-- C1: after two successive `drawMultiRoutes` calls the live overlays are
exactly one per candidate of the second result set, and at every observable
point of the second call the live overlays all belong to a single generation
— never a mix of the first and the second. -/
theorem drawMultiRoutes_generations (data1 data2 : RouteData)
    (s0 : DisplayState) :
    (runEvs (runEvs s0 (drawMultiRoutesEvs 1 data1 s0))
        (drawMultiRoutesEvs 2 data2
          (runEvs s0 (drawMultiRoutesEvs 1 data1 s0)))).routeLayers =
      overlaysFor 2 data2 ∧
    (overlaysFor 2 data2).length = data2.routes.length ∧
    (∀ o ∈ (runEvs s0 (drawMultiRoutesEvs 1 data1 s0)).routeLayers, o.gen = 1) ∧
    (∀ st ∈ statesOf (runEvs s0 (drawMultiRoutesEvs 1 data1 s0))
        (drawMultiRoutesEvs 2 data2 (runEvs s0 (drawMultiRoutesEvs 1 data1 s0))),
      (∀ o ∈ st.routeLayers, o.gen = 1) ∨ (∀ o ∈ st.routeLayers, o.gen = 2)) := by
  have h1 := runEvs_drawMulti 1 data1 s0
  set s1 := runEvs s0 (drawMultiRoutesEvs 1 data1 s0) with hs1
  have hl1 : s1.routeLayers = overlaysFor 1 data1 := by rw [h1]
  have hgen1 : ∀ o ∈ s1.routeLayers, o.gen = 1 := by
    rw [hl1]; exact overlaysFor_gen 1 data1
  have h2 := runEvs_drawMulti 2 data2 s1
  have hcleared : runEvs s1 (clearRoutesEvs s1) =
      { s1 with routeLayers := [] } :=
    runEvs_removeAll s1 s1.routeLayers rfl
  have hrun2 : runEvs s1 (clearRoutesEvs s1 ++
      (overlaysFor 2 data2).map Ev.drawOverlay) =
      { s1 with routeLayers := overlaysFor 2 data2 } := by
    rw [runEvs_append, hcleared, runEvs_draws]
    simp
  refine ⟨by rw [h2], by simp [overlaysFor], hgen1, ?_⟩
  intro st hst
  unfold drawMultiRoutesEvs at hst
  rcases mem_statesOf_append hst with hcd | htail
  · rcases mem_statesOf_append hcd with hclr | hdraw
    · exact Or.inl fun o ho => hgen1 o (mem_statesOf_removals hclr o ho)
    · rw [hcleared] at hdraw
      refine Or.inr (mem_statesOf_draws (fun o ho => ?_)
        (overlaysFor_gen 2 data2) hdraw)
      simp at ho
  · rw [hrun2] at htail
    refine Or.inr ?_
    have hmem : st ∈ [({ s1 with routeLayers := overlaysFor 2 data2 } : DisplayState),
        { s1 with routeLayers := overlaysFor 2 data2 },
        { s1 with routeLayers := overlaysFor 2 data2 }] := htail
    have hst3 : st = { s1 with routeLayers := overlaysFor 2 data2 } := by
      simpa using hmem
    rw [hst3]
    exact overlaysFor_gen 2 data2

/-! ## The form submit handler (`form.addEventListener('submit', ...)`) -/

/-- One geocoder hit `{display_name, lat, lon}`. -/
structure GeoHit where
  display_name : String
  lat : ℚ
  lon : ℚ

/-- Outcome of a `fetch`: parsed payload, or a thrown error on a non-ok
HTTP response. -/
inductive FetchResult (α : Type) where
  | ok (val : α)
  | httpError
deriving DecidableEq

/-- The environment of one form submission: the two field texts, the mode,
and the responses the collaborators would deliver. -/
structure SubmitEnv where
  originQ : String
  destQ : String
  mode : String
  geoOrigin : FetchResult (List GeoHit)
  geoDest : FetchResult (List GeoHit)
  routeResp : FetchResult RouteData

/-- Outcome of resolving one input field. -/
inductive Resolved where
  | ok (lat lon : ℚ)
  | geoFail
  | notFound
deriving DecidableEq

/-- Field resolution of the submit handler: `tryParseLatLon` first, then
the geocoder — whose thrown error or empty hit list aborts the flow — and
the first hit otherwise. -/
def resolveField (q : String) (geo : FetchResult (List GeoHit)) : Resolved :=
  match tryParseLatLon q with
  | some (lat, lon) => .ok lat lon
  | none =>
    match geo with
    | .httpError => .geoFail
    | .ok [] => .notFound
    | .ok (h :: _) => .ok h.lat h.lon

/-- The submit handler as its event trace (part_001 lines 328–373): after
both fields resolve, place both markers and fit the viewport, then issue the
route request; a non-ok response throws before `drawMultiRoutes`, so the
catch block alerts and no overlay is touched; on success `drawMultiRoutes`
runs as generation `gen`. -/
def submitEvents (gen : ℕ) (env : SubmitEnv) (s : DisplayState) : List Ev :=
  if env.originQ = "" ∨ env.destQ = "" then
    [Ev.alertMsg "Please enter both origin and destination."]
  else
    match resolveField env.originQ env.geoOrigin with
    | .geoFail => [Ev.alertMsg "Geocode failed"]
    | .notFound => [Ev.alertMsg "Origin not found."]
    | .ok olat olon =>
      match resolveField env.destQ env.geoDest with
      | .geoFail => [Ev.alertMsg "Geocode failed"]
      | .notFound => [Ev.alertMsg "Destination not found."]
      | .ok dlat dlon =>
        [Ev.placeMarker false olat olon, Ev.placeMarker true dlat dlon,
          Ev.fitMarkers, Ev.routeRequest olat olon dlat dlon env.mode] ++
        match env.routeResp with
        | .httpError => [Ev.alertMsg "Route computation failed"]
        | .ok data =>
          drawMultiRoutesEvs gen data
            (runEvs s [Ev.placeMarker false olat olon,
              Ev.placeMarker true dlat dlon, Ev.fitMarkers,
              Ev.routeRequest olat olon dlat dlon env.mode])

/-- `True` iff the event touches a route overlay (clearing or drawing). -/
def isOverlayEv : Ev → Bool
  | .removeOverlay _ => true
  | .drawOverlay _ => true
  | _ => false

/-- C8: whenever both fields resolve, the submit flow places the origin and
destination markers and fits the viewport strictly before issuing the route
request; and if the route request fails with a non-ok HTTP response, the
trace contains no overlay event at all — the previous overlays stay live
untouched — while the freshly placed markers remain set. -/
theorem submit_markers_before_request (gen : ℕ) (env : SubmitEnv)
    (s : DisplayState) (olat olon dlat dlon : ℚ)
    (hoq : env.originQ ≠ "") (hdq : env.destQ ≠ "")
    (ho : resolveField env.originQ env.geoOrigin = .ok olat olon)
    (hd : resolveField env.destQ env.geoDest = .ok dlat dlon) :
    (∃ rest, submitEvents gen env s =
      [Ev.placeMarker false olat olon, Ev.placeMarker true dlat dlon,
        Ev.fitMarkers, Ev.routeRequest olat olon dlat dlon env.mode] ++ rest) ∧
    (env.routeResp = .httpError →
      submitEvents gen env s =
        [Ev.placeMarker false olat olon, Ev.placeMarker true dlat dlon,
          Ev.fitMarkers, Ev.routeRequest olat olon dlat dlon env.mode,
          Ev.alertMsg "Route computation failed"] ∧
      (∀ e ∈ submitEvents gen env s, isOverlayEv e = false) ∧
      (runEvs s (submitEvents gen env s)).routeLayers = s.routeLayers ∧
      (runEvs s (submitEvents gen env s)).originMarker = some (olat, olon) ∧
      (runEvs s (submitEvents gen env s)).destMarker = some (dlat, dlon)) := by
  have hne : ¬(env.originQ = "" ∨ env.destQ = "") := by
    push_neg
    exact ⟨hoq, hdq⟩
  have hbody : submitEvents gen env s =
      [Ev.placeMarker false olat olon, Ev.placeMarker true dlat dlon,
        Ev.fitMarkers, Ev.routeRequest olat olon dlat dlon env.mode] ++
      match env.routeResp with
      | .httpError => [Ev.alertMsg "Route computation failed"]
      | .ok data =>
        drawMultiRoutesEvs gen data
          (runEvs s [Ev.placeMarker false olat olon,
            Ev.placeMarker true dlat dlon, Ev.fitMarkers,
            Ev.routeRequest olat olon dlat dlon env.mode]) := by
    unfold submitEvents
    rw [if_neg hne, ho, hd]
  refine ⟨⟨_, hbody⟩, ?_⟩
  intro hfail
  rw [hfail] at hbody
  have htrace : submitEvents gen env s =
      [Ev.placeMarker false olat olon, Ev.placeMarker true dlat dlon,
        Ev.fitMarkers, Ev.routeRequest olat olon dlat dlon env.mode,
        Ev.alertMsg "Route computation failed"] := hbody
  refine ⟨htrace, ?_, ?_, ?_, ?_⟩ <;> rw [htrace]
  · intro e he
    simp only [List.mem_cons, List.not_mem_nil, or_false] at he
    rcases he with rfl | rfl | rfl | rfl | rfl <;> rfl
  · rfl
  · rfl
  · rfl

/-- A submission whose fields resolve through the geocoder and whose route
request then fails with a non-ok HTTP response. -/
def demoEnv : SubmitEnv :=
  { originQ := "Saint Louis"
    destQ := "Forest Park"
    mode := "walk"
    geoOrigin := .ok [⟨"Saint Louis, MO, USA", 38, -90⟩]
    geoDest := .ok [⟨"Forest Park, St. Louis", 39, -91⟩]
    routeResp := .httpError }

/-- Witness for C8: with one pre-existing overlay on display and a failing
route request, the flow leaves that overlay live and the new markers set. -/
theorem submit_markers_before_request_witness :
    (runEvs ⟨none, none, [⟨1, 0⟩]⟩
        (submitEvents 2 demoEnv ⟨none, none, [⟨1, 0⟩]⟩)).routeLayers =
      (⟨none, none, [⟨1, 0⟩]⟩ : DisplayState).routeLayers ∧
    (runEvs ⟨none, none, [⟨1, 0⟩]⟩
        (submitEvents 2 demoEnv ⟨none, none, [⟨1, 0⟩]⟩)).originMarker =
      some (38, -90) := by
  have h := submit_markers_before_request 2 demoEnv ⟨none, none, [⟨1, 0⟩]⟩
    38 (-90) 39 (-91) (by decide) (by decide) (by decide) (by decide)
  have h2 := h.2 rfl
  exact ⟨h2.2.2.1, h2.2.2.2.1⟩

end SafeMap
